import Mathlib

/-
Verification development for the Etherscan source fetcher.

The fetcher retrieves verified contract source from the Etherscan API and
normalizes the response into a canonical compilation-input structure.
We embed the classifier pipeline of EtherscanFetcher as pure Lean
functions over a model of JavaScript values, the retry loop as a pure
function of the per-attempt outcomes, and the network-validity logic of
the constructor as a function of the resolved network name.

JSON.parse is an external JavaScript builtin, so the classifier is
parameterized by the parse function, modelled as returning none where
JSON.parse would throw.  Theorems quantified over every parse function
therefore also establish independence from the parse step.

JavaScript raises a TypeError when a property is accessed on null or
undefined, when Object.entries receives null or undefined, and when a
destructuring pattern is applied to null or undefined.  The classifier
contains no handler for these (its try only wraps the JSON.parse call),
so such a TypeError escapes it uncaught.  The embedding threads these
error paths explicitly: every function that can raise returns an Except
whose error case models the uncaught TypeError.
-/

/-- Model of a JavaScript runtime value as produced by JSON parsing and
by the fetcher itself.  In addition to JSON values it includes the
JavaScript-only values undefined (the result of a missing property
access) and NaN (the result of a failed parseInt).  Object fields are an
association list in property order; JavaScript objects have distinct
keys. -/
inductive Json where
  | null
  | undefined
  | nan
  | bool (b : Bool)
  | num (n : Int)
  | str (s : String)
  | arr (elems : List Json)
  | obj (fields : List (String × Json))

/-- Property access v.key on a JavaScript value: a TypeError (the error
case) when v is null or undefined, the field value when v is an object
carrying the key, undefined otherwise.  Built-in properties such as
length are not modelled; the keys the fetcher accesses (language,
sources, settings, content) never collide with them. -/
def Json.getFieldE (j : Json) (key : String) : Except Unit Json :=
  match j with
  | .null => .error ()
  | .undefined => .error ()
  | .obj fields =>
    match fields.find? (fun f => f.1 == key) with
    | some f => .ok f.2
    | none => .ok .undefined
  | _ => .ok .undefined

/-- The own enumerable entries of a non-nullish JavaScript value: the
field list for an object, index-keyed entries for an array, index-keyed
single-character strings for a string, empty for the remaining
primitives. -/
def jsObjectEntries : Json → List (String × Json)
  | .obj fields => fields
  | .arr elems => elems.enum.map (fun p => (toString p.1, p.2))
  | .str s => s.data.enum.map (fun p => (toString p.1, Json.str (String.mk [p.2])))
  | _ => []

/-- Object spread, as in the copy made by removeLibraries: spreading
null or undefined yields an empty object (no TypeError), any other
value contributes its own enumerable entries. -/
def jsSpread : Json → List (String × Json)
  | .null => []
  | .undefined => []
  | v => jsObjectEntries v

/-- Object.entries: a TypeError (the error case) on null or undefined,
the own enumerable entries otherwise. -/
def jsEntriesE : Json → Except Unit (List (String × Json))
  | .null => .error ()
  | .undefined => .error ()
  | v => .ok (jsObjectEntries v)

/-- One raw record of an Etherscan getsourcecode response.  All fields
are strings, exactly as in the EtherscanResult interface of the
source. -/
structure EtherscanResult where
  SourceCode : String
  ABI : String
  ContractName : String
  CompilerVersion : String
  OptimizationUsed : String
  Runs : String
  ConstructorArguments : String
  EVMVersion : String
  Library : String
  LicenseType : String
  Proxy : String
  Implementation : String
  SwarmSource : String

/-- The compiler options of the canonical output, field settings being a
JavaScript object (association list in property order). -/
structure SolcOptions where
  language : String
  version : String
  settings : List (String × Json)

/-- The canonical source structure returned by the classifier
(Types.SourceInfo in the source): a sources map from normalized
filename to source text plus compiler options. -/
structure SourceInfo where
  sources : List (String × Json)
  options : SolcOptions

/-- Modelled from the spec: makeFilename lives in the common module,
which is not part of the sources here.  The spec requires converting a
provider-supplied path into a unique output key such that two distinct
input paths never collapse to the same output filename, naming an
escaping encoding as the intended implementation choice.  We escape the
path separator and the escape character itself, which is injective. -/
def escapeChar (c : Char) : List Char :=
  if c = '/' then ['_', 's'] else if c = '_' then ['_', '_'] else [c]

/-- Character-list form of the escaping encoding behind makeFilename. -/
def escapeList : List Char → List Char
  | [] => []
  | c :: cs => escapeChar c ++ escapeList cs

/-- Modelled from the spec: filename normalization, an injective
escaping encoding of the provider-supplied path. -/
def makeFilename (path : String) : String :=
  String.mk (escapeList path.data)

/-- JavaScript String.prototype.startsWith, an external builtin,
modelled on the character list of the string. -/
def jsStartsWith (s pre : String) : Bool :=
  pre.data.isPrefixOf s.data

/-- Decimal form of JavaScript parseInt as applied to the Runs field:
skip leading whitespace, optional sign, longest leading digit run; none
models NaN.  parseInt is an external builtin; radix prefixes are not
modelled since the provider sends decimal run counts. -/
def parseIntJs (s : String) : Option Int :=
  let cs := s.data.dropWhile Char.isWhitespace
  let signAndRest : Int × List Char :=
    match cs with
    | '-' :: rest => (-1, rest)
    | '+' :: rest => (1, rest)
    | rest => (1, rest)
  let ds := signAndRest.2.takeWhile Char.isDigit
  if ds.isEmpty then none
  else some (signAndRest.1 * Int.ofNat (ds.foldl (fun acc c => acc * 10 + (c.toNat - 48)) 0))

/-- A JavaScript number that may be NaN, as stored into the runs
setting. -/
def jsNumber : Option Int → Json
  | some n => .num n
  | none => .nan

/-- EtherscanFetcher.extractSettings: optimizer settings from the flat
record fields, with the evmVersion key present only when the raw field
is not the sentinel Default. -/
def extractSettings (result : EtherscanResult) : List (String × Json) :=
  let optimizer : Json := .obj
    [("enabled", .bool (result.OptimizationUsed == "1")),
     ("runs", jsNumber (parseIntJs result.Runs))]
  if result.EVMVersion = "Default" then
    [("optimizer", optimizer)]
  else
    [("optimizer", optimizer), ("evmVersion", .str result.EVMVersion)]

/-- EtherscanFetcher.removeLibraries: a spread copy of the settings
value with the libraries key deleted.  Spread never throws, so this is
total. -/
def removeLibraries (settings : Json) : List (String × Json) :=
  (jsSpread settings).filter (fun f => f.1 != "libraries")

/-- Assigning one key into a JavaScript object: an existing key is
updated in place, a new key is appended, as in Object.assign. -/
def objInsert (fields : List (String × Json)) (key : String) (v : Json) :
    List (String × Json) :=
  if fields.any (fun f => f.1 == key) then
    fields.map (fun f => if f.1 == key then (key, v) else f)
  else
    fields ++ [(key, v)]

/-- Object.assign of a list of single-key objects onto an empty object,
in order. -/
def objAssign (pairs : List (String × Json)) : List (String × Json) :=
  pairs.foldl (fun acc kv => objInsert acc kv.1 kv.2) []

/-- The per-entry destructuring of processSources: taking the content
sub-field of each entry value in order, raising a TypeError (the error
case) at the first null or undefined value, and normalizing the path to
a filename. -/
def destructureSources : List (String × Json) → Except Unit (List (String × Json))
  | [] => .ok []
  | kv :: rest =>
    match kv.2.getFieldE "content" with
    | .error e => .error e
    | .ok content =>
      match destructureSources rest with
      | .error e => .error e
      | .ok tail => .ok ((makeFilename kv.1, content) :: tail)

/-- EtherscanFetcher.processSources: Object.entries of the parsed
sources value (a TypeError on null or undefined), destructuring of each
entry, then Object.assign of the single-key objects. -/
def processSources (sources : Json) : Except Unit (List (String × Json)) :=
  match jsEntriesE sources with
  | .error e => .error e
  | .ok entries =>
    match destructureSources entries with
    | .error e => .error e
    | .ok pairs => .ok (objAssign pairs)

/-- EtherscanFetcher.isFullJson: the parsed value carries a language
property strictly equal to the string Solidity.  The property access
raises a TypeError (the error case) when the parsed value is null. -/
def isFullJson (sourceJson : Json) : Except Unit Bool :=
  match sourceJson.getFieldE "language" with
  | .error e => .error e
  | .ok (.str s) => .ok (s == "Solidity")
  | .ok _ => .ok false

/-- EtherscanFetcher.processSingleResult: one source entry keyed by the
normalized contract name, settings from the flat fields. -/
def processSingleResult (result : EtherscanResult) : SourceInfo :=
  ⟨[(makeFilename result.ContractName, .str result.SourceCode)],
   ⟨"Solidity", result.CompilerVersion, extractSettings result⟩⟩

/-- EtherscanFetcher.processMultiResult: parsed top-level keys are file
paths, settings from the flat fields.  Propagates the TypeError of
processSources. -/
def processMultiResult (result : EtherscanResult) (sources : Json) :
    Except Unit SourceInfo :=
  match processSources sources with
  | .error e => .error e
  | .ok srcs =>
    .ok ⟨srcs, ⟨"Solidity", result.CompilerVersion, extractSettings result⟩⟩

/-- EtherscanFetcher.processJsonResult: sources and settings are taken
from the parsed full compiler input, with libraries removed from the
settings.  Propagates the TypeErrors of the property accesses and of
processSources. -/
def processJsonResult (result : EtherscanResult) (jsonInput : Json) :
    Except Unit SourceInfo :=
  match jsonInput.getFieldE "sources" with
  | .error e => .error e
  | .ok sources =>
    match processSources sources with
    | .error e => .error e
    | .ok srcs =>
      match jsonInput.getFieldE "settings" with
      | .error e => .error e
      | .ok settings =>
        .ok ⟨srcs, ⟨"Solidity", result.CompilerVersion, removeLibraries settings⟩⟩

/-- EtherscanFetcher.processResult: the five-way classifier.  parse
stands for the external JSON.parse, returning none where it would
throw (only the parse call is inside the try).  The error case is an
uncaught TypeError raised after a successful parse, for example when
the parsed source text is the JSON value null and isFullJson accesses
its language property. -/
def processResult (parse : String → Option Json) (result : EtherscanResult) :
    Except Unit (Option SourceInfo) :=
  if result.SourceCode = "" ∧ result.ABI = "Contract source code not verified" then
    .ok none
  else if jsStartsWith result.CompilerVersion "vyper" then
    .ok (some ⟨[], ⟨"Vyper", "", []⟩⟩)
  else
    match parse result.SourceCode with
    | none => .ok (some (processSingleResult result))
    | some sourceJson =>
      match isFullJson sourceJson with
      | .error e => .error e
      | .ok true =>
        match processJsonResult result sourceJson with
        | .error e => .error e
        | .ok info => .ok (some info)
      | .ok false =>
        match processMultiResult result sourceJson with
        | .error e => .error e
        | .ok info => .ok (some info)

/-- Classification as invoked by fetchSourcesForAddress on the first
element of the result array: applying it to an undefined record (an
empty array) raises a TypeError when the SourceCode field of undefined
is accessed, modelled as the error outcome; TypeErrors raised inside
the classifier surface the same way. -/
def processResultOnRecord (parse : String → Option Json) :
    Option EtherscanResult → Except Unit (Option SourceInfo)
  | none => .error ()
  | some result => processResult parse result

/-- EtherscanFetcher.fetchSourcesForAddress, as a function of the result
array of the successful response: classify element zero of the array. -/
def fetchSourcesForAddress (parse : String → Option Json)
    (results : List EtherscanResult) : Except Unit (Option SourceInfo) :=
  processResultOnRecord parse results.head?

/-- The provider response envelope: status 1 carries a record array,
status 0 carries a plain error string. -/
inductive RawResponse where
  | success (message : String) (result : List EtherscanResult)
  | failure (message : String) (result : String)

/-- A failure of one attempt: either the transport call threw, or the
envelope had failure status and an Error carrying the provider result
string was raised. -/
inductive FetchError (T : Type) where
  | transport (e : T)
  | provider (result : String)

/-- EtherscanFetcher.makeRequest as a function of the transport outcome:
a transport error propagates, a failure envelope is raised as an error
carrying the result string, a success envelope is returned. -/
def makeRequest {T : Type} (resp : Except T RawResponse) :
    Except (FetchError T) (String × List EtherscanResult) :=
  match resp with
  | .error e => .error (.transport e)
  | .ok (.failure _ res) => .error (.provider res)
  | .ok (.success msg res) => .ok (msg, res)

/-- The attempt budget of getSuccessfulResponse. -/
def allowedAttempts : Nat := 2

/-- The retry loop of EtherscanFetcher.getSuccessfulResponse: fuel
counts the remaining attempts, k is the index of the next attempt, last
holds the most recent error (initially undefined).  When the fuel runs
out, the last error is thrown. -/
def getSuccessfulResponseAux {E A : Type} (att : Nat → Except E A) :
    Nat → Nat → Option E → Except (Option E) A
  | 0, _, last => .error last
  | fuel + 1, k, _ =>
    match att k with
    | .ok a => .ok a
    | .error e => getSuccessfulResponseAux att fuel (k + 1) (some e)

/-- EtherscanFetcher.getSuccessfulResponse as a function of the
per-attempt outcomes: run up to allowedAttempts gated attempts,
returning the first success, otherwise throwing the last error. -/
def getSuccessfulResponse {E A : Type} (att : Nat → Except E A) :
    Except (Option E) A :=
  getSuccessfulResponseAux att allowedAttempts 0 none

/-- The supported network list of the EtherscanFetcher constructor. -/
def supportedNetworks : List String :=
  ["mainnet", "ropsten", "kovan", "rinkeby", "goerli"]

/-- The constructor state relevant to network validation; none for the
suffix models the field being left undefined. -/
structure EtherscanFetcherState where
  validNetwork : Bool
  suffix : Option String

/-- The EtherscanFetcher constructor as a function of the resolved
network name (the networksById lookup lives in the common module, not
part of the sources here; an unknown network id resolves to none).  An
unsupported or unknown name leaves the suffix undefined. -/
def mkEtherscanFetcher (networkName : Option String) : EtherscanFetcherState :=
  match networkName with
  | none => ⟨false, none⟩
  | some name =>
    if supportedNetworks.contains name then
      ⟨true, some (if name = "mainnet" then "" else "-" ++ name)⟩
    else
      ⟨false, none⟩

/-- EtherscanFetcher.isNetworkValid. -/
def isNetworkValid (st : EtherscanFetcherState) : Bool :=
  st.validNetwork

/-- Every key of the settings built from the flat record fields is
optimizer or evmVersion, so never libraries. -/
theorem libraries_not_mem_extractSettings (r : EtherscanResult) :
    "libraries" ∉ (extractSettings r).map Prod.fst := by
  unfold extractSettings
  split <;> simp

/-- Deleting the libraries key really removes it. -/
theorem libraries_not_mem_removeLibraries (s : Json) :
    "libraries" ∉ (removeLibraries s).map Prod.fst := by
  intro h
  obtain ⟨f, hf, hfst⟩ := List.mem_map.mp h
  have h2 := (List.mem_filter.mp hf).2
  rw [hfst] at h2
  simp at h2

/-- When the full-JSON case returns, its settings are a copy of the
parsed settings without the libraries key. -/
theorem libraries_not_mem_processJsonResult (r : EtherscanResult) (j : Json)
    (info : SourceInfo) (h : processJsonResult r j = .ok info) :
    "libraries" ∉ info.options.settings.map Prod.fst := by
  unfold processJsonResult at h
  cases h1 : j.getFieldE "sources" with
  | error e => simp [h1] at h
  | ok sources =>
    simp only [h1] at h
    cases h2 : processSources sources with
    | error e => simp [h2] at h
    | ok srcs =>
      simp only [h2] at h
      cases h3 : j.getFieldE "settings" with
      | error e => simp [h3] at h
      | ok settings =>
        simp only [h3, Except.ok.injEq] at h
        rw [← h]
        exact libraries_not_mem_removeLibraries settings

/-- When the multi-source case returns, its settings come from the flat
record fields. -/
theorem processMultiResult_ok_settings (r : EtherscanResult) (sources : Json)
    (info : SourceInfo) (h : processMultiResult r sources = .ok info) :
    info.options.settings = extractSettings r := by
  unfold processMultiResult at h
  cases h1 : processSources sources with
  | error e => simp [h1] at h
  | ok srcs =>
    simp only [h1, Except.ok.injEq] at h
    rw [← h]

/-- C1: a record that is not the unverified case and whose compiler
version begins with vyper classifies to the fixed Vyper result, for
every parse function, so the Vyper check strictly precedes the parse
attempt and no JSON parsing of the source text is consulted. -/
theorem vyper_case_precedes_parse (parse : String → Option Json)
    (r : EtherscanResult)
    (h1 : ¬(r.SourceCode = "" ∧ r.ABI = "Contract source code not verified"))
    (h2 : jsStartsWith r.CompilerVersion "vyper" = true) :
    processResult parse r = .ok (some ⟨[], ⟨"Vyper", "", []⟩⟩) := by
  simp [processResult, h1, h2]

/-- C2, amended: the classifier returns null exactly when the source
text is empty and the ABI field is the not-verified sentinel; no other
record returns null — every other record yields either a non-null
canonical source or an uncaught TypeError, for every parse function. -/
theorem classify_null_iff_amended (parse : String → Option Json)
    (r : EtherscanResult) :
    processResult parse r = .ok none ↔
      r.SourceCode = "" ∧ r.ABI = "Contract source code not verified" := by
  by_cases h : r.SourceCode = "" ∧ r.ABI = "Contract source code not verified"
  · simp [processResult, h]
  · simp only [processResult, if_neg h, h, iff_false]
    by_cases hv : jsStartsWith r.CompilerVersion "vyper"
    · simp [hv]
    · simp only [hv, Bool.false_eq_true, if_false]
      cases parse r.SourceCode with
      | none => simp
      | some j =>
        cases hf : isFullJson j with
        | error e => simp [hf]
        | ok b =>
          cases b with
          | true => cases hj : processJsonResult r j <;> simp [hf, hj]
          | false => cases hm : processMultiResult r j <;> simp [hf, hm]

/-- C3: whichever of the five classification cases produced it, the
settings object of a non-null canonical source never carries a
libraries key: the full-JSON case copies the parsed settings with the
libraries key deleted, and the settings built from the flat record
fields contain only the optimizer and evmVersion keys. -/
theorem classify_settings_no_libraries (parse : String → Option Json)
    (r : EtherscanResult) (info : SourceInfo)
    (h : processResult parse r = .ok (some info)) :
    "libraries" ∉ info.options.settings.map Prod.fst := by
  by_cases h1 : r.SourceCode = "" ∧ r.ABI = "Contract source code not verified"
  · simp [processResult, h1] at h
  · by_cases hv : jsStartsWith r.CompilerVersion "vyper"
    · simp [processResult, h1, hv] at h
      rw [← h]
      simp
    · cases hp : parse r.SourceCode with
      | none =>
        simp [processResult, h1, hv, hp] at h
        rw [← h]
        exact libraries_not_mem_extractSettings r
      | some j =>
        cases hf : isFullJson j with
        | error e => simp [processResult, h1, hv, hp, hf] at h
        | ok b =>
          cases b with
          | true =>
            cases hj : processJsonResult r j with
            | error e => simp [processResult, h1, hv, hp, hf, hj] at h
            | ok info2 =>
              simp [processResult, h1, hv, hp, hf, hj] at h
              rw [← h]
              exact libraries_not_mem_processJsonResult r j info2 hj
          | false =>
            cases hm : processMultiResult r j with
            | error e => simp [processResult, h1, hv, hp, hf, hm] at h
            | ok info2 =>
              simp [processResult, h1, hv, hp, hf, hm] at h
              rw [← h]
              rw [processMultiResult_ok_settings r j info2 hm]
              exact libraries_not_mem_extractSettings r

/-- C4: a record that is neither unverified nor Vyper and whose source
text fails to parse as JSON classifies to a single-file result: one
sources entry keyed by the normalized contract name holding the raw
source text, language Solidity, version the compiler version, optimizer
enabled exactly when OptimizationUsed is the string 1, runs the integer
parse of Runs, and an evmVersion key present exactly when EVMVersion is
not the sentinel Default. -/
theorem classify_single_file (parse : String → Option Json)
    (r : EtherscanResult)
    (h1 : ¬(r.SourceCode = "" ∧ r.ABI = "Contract source code not verified"))
    (h2 : jsStartsWith r.CompilerVersion "vyper" = false)
    (h3 : parse r.SourceCode = none) :
    processResult parse r =
      .ok (some ⟨[(makeFilename r.ContractName, Json.str r.SourceCode)],
        ⟨"Solidity", r.CompilerVersion,
         if r.EVMVersion = "Default" then
           [("optimizer", Json.obj
              [("enabled", Json.bool (r.OptimizationUsed == "1")),
               ("runs", jsNumber (parseIntJs r.Runs))])]
         else
           [("optimizer", Json.obj
              [("enabled", Json.bool (r.OptimizationUsed == "1")),
               ("runs", jsNumber (parseIntJs r.Runs))]),
            ("evmVersion", Json.str r.EVMVersion)]⟩⟩) := by
  simp [processResult, h1, h2, h3, processSingleResult, extractSettings]

/-- C10: a record with empty source text whose ABI is not the
not-verified sentinel and whose compiler version is not a vyper version
is not classified as null: parsing the empty string fails, so the
record falls to the single-file case, mapping the normalized contract
name to the empty source text. -/
theorem classify_empty_source_not_null (parse : String → Option Json)
    (r : EtherscanResult)
    (hp : parse "" = none)
    (h1 : r.SourceCode = "")
    (h2 : r.ABI ≠ "Contract source code not verified")
    (h3 : jsStartsWith r.CompilerVersion "vyper" = false) :
    processResult parse r =
      .ok (some ⟨[(makeFilename r.ContractName, Json.str "")],
        ⟨"Solidity", r.CompilerVersion, extractSettings r⟩⟩) := by
  simp [processResult, h1, h2, h3, hp, processSingleResult]

/-- C5: one logical fetch makes at most two attempts, and the retry
loop over the per-attempt outcomes is fully described by one equation
consulting only attempts zero and one: a successful first attempt
returns immediately (the second attempt is never consulted), a failed
first attempt is followed by a second, and when both fail the error of
the second, most recent attempt is rethrown with no wrapping and no
aggregation of the first error.  A failure envelope is raised as an
error carrying the provider result string. -/
theorem retry_two_attempts {T : Type} (transport : Nat → Except T RawResponse)
    (m res : String) :
    getSuccessfulResponse (fun k => makeRequest (transport k)) =
      (match makeRequest (transport 0) with
       | .ok a => .ok a
       | .error _ =>
         match makeRequest (transport 1) with
         | .ok a => .ok a
         | .error e => .error (some e)) ∧
    makeRequest (T := T) (.ok (.failure m res)) = .error (.provider res) := by
  constructor
  · cases h0 : makeRequest (transport 0) with
    | ok a =>
      simp [getSuccessfulResponse, allowedAttempts, getSuccessfulResponseAux, h0]
    | error e0 =>
      cases h1 : makeRequest (transport 1) <;>
        simp [getSuccessfulResponse, allowedAttempts, getSuccessfulResponseAux, h0, h1]
  · rfl

/-- C8: network validity of the constructor.  An unknown network id
(resolving to no name) and every name outside the fixed supported set
yield an invalid fetcher; every supported name yields a valid one, with
endpoint suffix empty for mainnet and a hyphenated network name
otherwise. -/
theorem network_validity (name : String) :
    isNetworkValid (mkEtherscanFetcher none) = false ∧
    (isNetworkValid (mkEtherscanFetcher (some name)) = true ↔
      name ∈ supportedNetworks) ∧
    (mkEtherscanFetcher (some "mainnet")).suffix = some "" ∧
    (name ∈ supportedNetworks → name ≠ "mainnet" →
      (mkEtherscanFetcher (some name)).suffix = some ("-" ++ name)) := by
  refine ⟨rfl, ?_, rfl, ?_⟩
  · by_cases h : name ∈ supportedNetworks <;>
      simp [mkEtherscanFetcher, isNetworkValid, h]
  · intro h hm
    simp [mkEtherscanFetcher, h, hm]

/-- C9: fetchSourcesForAddress classifies only the first element of the
result array of a successful response; the remaining records do not
influence the outcome, and an empty result array passes an undefined
record to the classifier, whose field access then raises a TypeError. -/
theorem fetch_classifies_first_record (parse : String → Option Json)
    (r : EtherscanResult) (rest rest2 : List EtherscanResult) :
    fetchSourcesForAddress parse (r :: rest) = processResult parse r ∧
    fetchSourcesForAddress parse (r :: rest) =
      fetchSourcesForAddress parse (r :: rest2) ∧
    fetchSourcesForAddress parse [] = .error () :=
  ⟨rfl, rfl, rfl⟩

/-- Decoder of the escaping encoding behind makeFilename: an escape
pair opened by the escape character decodes to the separator or to the
escape character, any other character decodes to itself. -/
def unescapeList : List Char → List Char
  | [] => []
  | c :: cs =>
    if c = '_' then
      match cs with
      | [] => ['_']
      | d :: cs2 => (if d = 's' then '/' else '_') :: unescapeList cs2
    else
      c :: unescapeList cs

/-- The decoder inverts the escaping encoding, so the encoding is
injective. -/
theorem unescape_escape (l : List Char) : unescapeList (escapeList l) = l := by
  induction l with
  | nil => rfl
  | cons c cs ih =>
    by_cases h1 : c = '/'
    · subst h1
      simp [escapeList, escapeChar, unescapeList, ih]
    · by_cases h2 : c = '_'
      · subst h2
        simp [escapeList, escapeChar, unescapeList, ih]
      · have he : escapeList (c :: cs) = c :: escapeList cs := by
          simp [escapeList, escapeChar, h1, h2]
        rw [he]
        unfold unescapeList
        rw [if_neg h2, ih]

/-- Two distinct paths never normalize to the same filename. -/
theorem makeFilename_injective : Function.Injective makeFilename := by
  intro a b hab
  have h : escapeList a.data = escapeList b.data := congrArg String.data hab
  have h2 := congrArg unescapeList h
  rw [unescape_escape, unescape_escape] at h2
  cases a
  cases b
  exact congrArg String.mk (by simpa using h2)

/-- Assigning a fresh key into an object appends it. -/
theorem objInsert_of_not_mem (fields : List (String × Json)) (key : String)
    (v : Json) (h : key ∉ fields.map Prod.fst) :
    objInsert fields key v = fields ++ [(key, v)] := by
  have hany : fields.any (fun f => f.1 == key) = false := by
    simp only [List.any_eq_false, beq_iff_eq]
    intro f hf he
    exact h (List.mem_map.mpr ⟨f, hf, he⟩)
  simp [objInsert, hany]

/-- Object.assign over entries with pairwise distinct keys loses
nothing: it concatenates the entries onto the accumulator. -/
theorem objAssign_foldl_of_nodup (pairs : List (String × Json)) :
    ∀ acc : List (String × Json),
      (∀ k ∈ pairs.map Prod.fst, k ∉ acc.map Prod.fst) →
      (pairs.map Prod.fst).Nodup →
      pairs.foldl (fun a kv => objInsert a kv.1 kv.2) acc = acc ++ pairs := by
  induction pairs with
  | nil => intro acc _ _; simp
  | cons kv rest ih =>
    intro acc hdisj hnodup
    simp only [List.foldl_cons]
    rw [objInsert_of_not_mem _ _ _ (hdisj kv.1 (by simp))]
    rw [ih (acc ++ [(kv.1, kv.2)]) ?_ ?_]
    · simp
    · intro k hk
      simp only [List.map_append, List.mem_append, List.map_cons, List.map_nil,
        List.mem_singleton, not_or]
      constructor
      · exact hdisj k (by simp [hk])
      · simp only [List.map_cons] at hnodup
        intro he
        exact (List.nodup_cons.mp hnodup).1 (he ▸ hk)
    · exact (List.nodup_cons.mp (by simpa using hnodup)).2

/-- When the destructuring pass returns, its output keys are exactly the
normalized input paths, in order. -/
theorem destructureSources_ok_keys (l : List (String × Json)) :
    ∀ out : List (String × Json), destructureSources l = .ok out →
      out.map Prod.fst = l.map (fun kv => makeFilename kv.1) := by
  induction l with
  | nil =>
    intro out h
    simp only [destructureSources, Except.ok.injEq] at h
    rw [← h]
    simp
  | cons kv rest ih =>
    intro out h
    unfold destructureSources at h
    cases hc : kv.2.getFieldE "content" with
    | error e => rw [hc] at h; simp at h
    | ok content =>
      rw [hc] at h
      cases hd : destructureSources rest with
      | error e => rw [hd] at h; simp at h
      | ok tail =>
        rw [hd] at h
        simp only [Except.ok.injEq] at h
        rw [← h]
        simp [ih tail hd]

/-- C7: filename normalization is collision-free: normalization is
injective, and whenever processSources returns on a parsed sources
object (whose keys are distinct, as JavaScript object keys are), the
returned keys are exactly the normalized input paths, pairwise
distinct, with no entry lost. -/
theorem filenames_collision_free (a b : String)
    (kvs pairs : List (String × Json))
    (hab : makeFilename a = makeFilename b)
    (h : (kvs.map Prod.fst).Nodup)
    (hok : processSources (Json.obj kvs) = .ok pairs) :
    a = b ∧
    pairs.map Prod.fst = (kvs.map Prod.fst).map makeFilename ∧
    (pairs.map Prod.fst).Nodup ∧
    pairs.length = kvs.length := by
  simp only [processSources, jsEntriesE, jsObjectEntries] at hok
  cases hd : destructureSources kvs with
  | error e => simp [hd] at hok
  | ok dpairs =>
    simp only [hd, Except.ok.injEq] at hok
    have hkeys : dpairs.map Prod.fst = (kvs.map Prod.fst).map makeFilename := by
      rw [destructureSources_ok_keys kvs dpairs hd, List.map_map]
      rfl
    have hnodup2 : (dpairs.map Prod.fst).Nodup := by
      rw [hkeys]
      exact h.map makeFilename_injective
    have hassign : objAssign dpairs = dpairs := by
      unfold objAssign
      rw [objAssign_foldl_of_nodup dpairs [] (by simp) hnodup2]
      simp
    have hpairs : pairs = dpairs := by
      rw [← hok]
      exact hassign
    subst hpairs
    refine ⟨makeFilename_injective hab, hkeys, hnodup2, ?_⟩
    have hlen := congrArg List.length hkeys
    simpa using hlen

/-- A Vyper record whose source text is not empty. -/
def sampleVyperResult : EtherscanResult :=
  ⟨"x", "[]", "C", "vyper-0.2.8", "0", "0", "", "Default", "", "", "", "", ""⟩

/-- A plain-text single-source record. -/
def sampleSingleResult : EtherscanResult :=
  ⟨"contract C", "[]", "C", "v0.8.0", "1", "200", "", "Default", "", "", "", "", ""⟩

/-- A record with empty source text but an ABI that is not the
not-verified sentinel. -/
def sampleEmptyResult : EtherscanResult :=
  ⟨"", "[]", "C", "v0.8.0", "0", "0", "", "Default", "", "", "", "", ""⟩

/-- A record whose source text is the four characters of the word null:
not empty, not a vyper version, and JSON.parse succeeds on it returning
the JSON value null. -/
def sampleNullSourceResult : EtherscanResult :=
  ⟨"null", "[]", "C", "v0.8.0", "0", "0", "", "Default", "", "", "", "", ""⟩

/-- A parsed full compiler input whose settings carry a libraries
key. -/
def sampleFullJsonValue : Json :=
  Json.obj
    [("language", Json.str "Solidity"),
     ("sources", Json.obj [("a.sol", Json.obj [("content", Json.str "X")])]),
     ("settings", Json.obj
       [("libraries", Json.obj []),
        ("optimizer", Json.obj [("enabled", Json.bool true), ("runs", Json.num 1)])])]

/-- The record wrapping the full compiler input. -/
def sampleFullJsonResult : EtherscanResult :=
  ⟨"json input", "[]", "C", "v0.8.0", "1", "1", "", "Default", "", "", "", "", ""⟩

/-- The canonical source the full-JSON sample classifies to. -/
def sampleFullJsonInfo : SourceInfo :=
  ⟨[("a.sol", Json.str "X")],
   ⟨"Solidity", "v0.8.0",
    [("optimizer", Json.obj [("enabled", Json.bool true), ("runs", Json.num 1)])]⟩⟩

/-- A parsed two-file sources object. -/
def sampleSourcesObj : List (String × Json) :=
  [("a.sol", Json.obj [("content", Json.str "X")]),
   ("b.sol", Json.obj [("content", Json.str "Y")])]

/-- The normalized sources map of the two-file sample. -/
def samplePairs : List (String × Json) :=
  [("a.sol", Json.str "X"), ("b.sol", Json.str "Y")]

/-- C2 counterexample: a record whose source text parses to the JSON
value null.  It is not the unverified case, yet the classifier neither
returns null nor a canonical source: accessing the language property of
null raises an uncaught TypeError, so the original claim that every
non-unverified record yields a non-null canonical source is false.  The
parse function used agrees with JSON.parse on this input. -/
theorem classify_null_counterexample :
    (¬(sampleNullSourceResult.SourceCode = "" ∧
       sampleNullSourceResult.ABI = "Contract source code not verified")) ∧
    processResult (fun _ => some Json.null) sampleNullSourceResult =
      .error () :=
  ⟨by decide, rfl⟩

/-- C1 witness: a concrete non-unverified Vyper record classifies to the
fixed Vyper result even under a parse function that would report a full
compiler input. -/
theorem vyper_case_precedes_parse_witness :
    (¬(sampleVyperResult.SourceCode = "" ∧
       sampleVyperResult.ABI = "Contract source code not verified")) ∧
    jsStartsWith sampleVyperResult.CompilerVersion "vyper" = true ∧
    processResult (fun _ => some sampleFullJsonValue) sampleVyperResult =
      .ok (some ⟨[], ⟨"Vyper", "", []⟩⟩) :=
  ⟨by decide, by decide,
   vyper_case_precedes_parse (fun _ => some sampleFullJsonValue) sampleVyperResult
     (by decide) (by decide)⟩

/-- C3 witness: the full-JSON record with a libraries key in its parsed
settings classifies to settings holding only the optimizer key. -/
theorem classify_settings_no_libraries_witness :
    processResult (fun _ => some sampleFullJsonValue) sampleFullJsonResult =
      .ok (some sampleFullJsonInfo) ∧
    "libraries" ∉ sampleFullJsonInfo.options.settings.map Prod.fst :=
  ⟨rfl,
   classify_settings_no_libraries (fun _ => some sampleFullJsonValue)
     sampleFullJsonResult sampleFullJsonInfo rfl⟩

/-- C4 witness: a concrete plain-text record classifies to the
single-file result. -/
theorem classify_single_file_witness :
    (¬(sampleSingleResult.SourceCode = "" ∧
       sampleSingleResult.ABI = "Contract source code not verified")) ∧
    jsStartsWith sampleSingleResult.CompilerVersion "vyper" = false ∧
    processResult (fun _ => none) sampleSingleResult =
      .ok (some ⟨[(makeFilename sampleSingleResult.ContractName,
              Json.str sampleSingleResult.SourceCode)],
        ⟨"Solidity", sampleSingleResult.CompilerVersion,
         if sampleSingleResult.EVMVersion = "Default" then
           [("optimizer", Json.obj
              [("enabled", Json.bool (sampleSingleResult.OptimizationUsed == "1")),
               ("runs", jsNumber (parseIntJs sampleSingleResult.Runs))])]
         else
           [("optimizer", Json.obj
              [("enabled", Json.bool (sampleSingleResult.OptimizationUsed == "1")),
               ("runs", jsNumber (parseIntJs sampleSingleResult.Runs))]),
            ("evmVersion", Json.str sampleSingleResult.EVMVersion)]⟩⟩) :=
  ⟨by decide, by decide,
   classify_single_file (fun _ => none) sampleSingleResult
     (by decide) (by decide) rfl⟩

/-- C7 witness: a concrete two-file sources object normalizes without
collision. -/
theorem filenames_collision_free_witness :
    (sampleSourcesObj.map Prod.fst).Nodup ∧
    processSources (Json.obj sampleSourcesObj) = .ok samplePairs ∧
    ("a.sol" = "a.sol" ∧
     samplePairs.map Prod.fst = (sampleSourcesObj.map Prod.fst).map makeFilename ∧
     (samplePairs.map Prod.fst).Nodup ∧
     samplePairs.length = sampleSourcesObj.length) :=
  ⟨by decide, rfl,
   filenames_collision_free "a.sol" "a.sol" sampleSourcesObj samplePairs rfl
     (by decide) rfl⟩

/-- C8 witness: goerli is supported, is not the primary network, and
receives the hyphenated suffix. -/
theorem network_validity_witness :
    "goerli" ∈ supportedNetworks ∧ "goerli" ≠ "mainnet" ∧
    (mkEtherscanFetcher (some "goerli")).suffix = some "-goerli" :=
  ⟨by decide, by decide,
   (network_validity "goerli").2.2.2 (by decide) (by decide)⟩

/-- C10 witness: a concrete record with empty source text and a
non-sentinel ABI classifies to a single empty source entry. -/
theorem classify_empty_source_not_null_witness :
    (fun _ : String => (none : Option Json)) "" = none ∧
    sampleEmptyResult.SourceCode = "" ∧
    sampleEmptyResult.ABI ≠ "Contract source code not verified" ∧
    jsStartsWith sampleEmptyResult.CompilerVersion "vyper" = false ∧
    processResult (fun _ => none) sampleEmptyResult =
      .ok (some ⟨[(makeFilename sampleEmptyResult.ContractName, Json.str "")],
        ⟨"Solidity", sampleEmptyResult.CompilerVersion,
         extractSettings sampleEmptyResult⟩⟩) :=
  ⟨rfl, rfl, by decide, by decide,
   classify_empty_source_not_null (fun _ => none) sampleEmptyResult
     rfl rfl (by decide) (by decide)⟩
